import Mathlib

/-!
Verification development for the identity and role synchronization core of the
customer-service backend.

The Python source is shallowly embedded as follows:

- The invited_users table is a list of records (DB); SQL SELECT is modelled by
  List.find? (fetchone returns the first matching row) and SQL UPDATE by a map
  that rewrites every matching row, paired with the affected-row count
  (cur.rowcount).
- Timestamps are integers (seconds, UTC); NOW() is an explicit now parameter.
- Each HTTP endpoint with a psycopg2 "with conn" transaction is modelled as a
  pure function returning the database state together with Except: the error
  constructor corresponds to an exception raised inside the transaction, and
  the transaction wrapper restores the pre-call state on error (psycopg2
  connection context managers roll back when the body raises).
- Calls into the external identity provider (boto3 Cognito client) are an
  environment of oracles returning Except: the error case corresponds to the
  provider call raising (ClientError re-raised as RuntimeError, or a request
  failure).
-/

set_option autoImplicit false

deriving instance DecidableEq for Except

namespace CsBackend

/-- Python str.lower, restricted to the character-wise case: every character is
lowered independently (the emails handled by the code are ASCII). -/
def lowerStr (s : String) : String := String.mk (s.data.map Char.toLower)

/-- Python str.endswith. -/
def strEndsWith (s suff : String) : Bool := suff.data.isSuffixOf s.data

/-- Python "not s or not s.strip()": s is empty or consists of whitespace. -/
def isBlank (s : String) : Bool :=
  s.data.all (fun c => c == ' ' || c == '\t' || c == '\n' || c == '\r')

/-- Row of the invited_users table (src/auth schema): email is the key, role is
"Agent" or "Supervisor", status is "pending", "active" or "revoked"; token and
token_expires_at are nullable. -/
structure AllowRec where
  email : String
  role : String
  status : String
  invitedBy : Option String
  token : Option String
  tokenExpiresAt : Option Int
  createdAt : Int
  updatedAt : Int
deriving Repr, DecidableEq

/-- The invited_users table. -/
abbrev DB := List AllowRec

/-- SELECT ... FROM invited_users WHERE email = e, with fetchone. -/
def findByEmail (db : DB) (e : String) : Option AllowRec :=
  db.find? (fun r => r.email == e)

/-- SELECT ... FROM invited_users WHERE token = t, with fetchone. -/
def findByToken (db : DB) (t : String) : Option AllowRec :=
  db.find? (fun r => r.token == some t)

/-- SQL UPDATE ... WHERE p: rewrites every matching row and also returns
cur.rowcount, the number of affected rows. -/
def updateRows (db : DB) (p : AllowRec → Bool) (f : AllowRec → AllowRec) : DB × Nat :=
  (db.map (fun r => if p r then f r else r), (db.filter p).length)

/-- Errors raised by the accept endpoint (all HTTP 400). -/
inductive AcceptErr where
  | tokenRequired
  | invalidOrExpired
  | expired
  | alreadyConsumed
deriving Repr, DecidableEq

/-- SET token = NULL, token_expires_at = NULL, updated_at = NOW()
(accept_api.py, already-active branch). -/
def clearTokenFields (now : Int) (r : AllowRec) : AllowRec :=
  { r with token := none, tokenExpiresAt := none, updatedAt := now }

/-- SET status = active, token = NULL, token_expires_at = NULL,
updated_at = NOW() (accept_api.py, activation branch). -/
def activateRecord (now : Int) (r : AllowRec) : AllowRec :=
  { r with status := "active", token := none, tokenExpiresAt := none, updatedAt := now }

/-- The expiry test of accept_api.py: "token_expires_at and
token_expires_at < now" — false when the column is NULL, otherwise a strict
comparison against timezone-aware UTC now. -/
def tokenExpired (t : Option Int) (now : Int) : Bool :=
  match t with
  | some exp => decide (exp < now)
  | none => false

/-- accept_invite (src/auth/accept_api.py) with the read phase and the write
phase split over two database states: dbRead is the state the SELECT sees,
dbWrite the state the UPDATE is applied to. The sequential call uses the same
state for both; a concurrent interleaving is expressed by letting them differ.
On a raised HTTPException the transaction rolls back, so the function returns
dbWrite unchanged together with the error. -/
def accept_invite_at (dbRead dbWrite : DB) (now : Int) (token : String) :
    DB × Except AcceptErr String :=
  if isBlank token then (dbWrite, .error .tokenRequired)
  else
    match findByToken dbRead token with
    | none => (dbWrite, .error .invalidOrExpired)
    | some row =>
      if tokenExpired row.tokenExpiresAt now then
        (dbWrite, .error .expired)
      else if row.status == "active" then
        let upd := updateRows dbWrite (fun r => r.email == row.email) (clearTokenFields now)
        (upd.1, .ok row.email)
      else
        let upd := updateRows dbWrite
          (fun r => r.email == row.email && r.token == some token) (activateRecord now)
        if upd.2 == 0 then (dbWrite, .error .alreadyConsumed)
        else (upd.1, .ok row.email)

/-- accept_invite as executed sequentially: read and write on the same state. -/
def accept_invite (db : DB) (now : Int) (token : String) : DB × Except AcceptErr String :=
  accept_invite_at db db now token

/-- Value of the cognito:groups claim as found in the decoded JWT claims map:
absent, a list of strings, or some other JSON value (the duck-typed branch of
extract_groups). -/
inductive ClaimGroups where
  | absent
  | strList (l : List String)
  | other
deriving Repr, DecidableEq

/-- Claims extracted from a verified id_token, restricted to the fields the
authorization pipeline reads. -/
structure Claims where
  email : Option String
  cognitoGroups : ClaimGroups
deriving Repr, DecidableEq

/-- extract_groups (src/auth/cognito.py): the cognito:groups claim if it is a
list, else the empty list. -/
def extract_groups (claims : Claims) : List String :=
  match claims.cognitoGroups with
  | .strList l => l
  | _ => []

/-- ALLOWED_GROUPS (src/auth/cognito.py). -/
def ALLOWED_GROUPS : List String := ["Agent", "Supervisor"]

/-- ALLOWED_DOMAIN (src/auth/cognito.py). -/
def ALLOWED_DOMAIN : String := "musclepoints.com"

/-- is_allowed_email (src/auth/cognito.py). -/
def is_allowed_email (email : String) : Bool :=
  strEndsWith (lowerStr email) ("@" ++ ALLOWED_DOMAIN)

/-- Incoming HTTP request, restricted to the credential carriers the pipeline
reads: the Authorization header and the id_token cookie. -/
structure Request where
  authorizationHeader : Option String
  idTokenCookie : Option String
deriving Repr, DecidableEq

/-- Errors raised on the authentication path of deps.py. -/
inductive AuthErr where
  | missingToken
  | tokenInvalid
  | domainNotAllowed
  | groupNotPresent
  | notAuthorized
  | roleMismatch
  | supervisorRequired
deriving Repr, DecidableEq

/-- The authenticated principal returned by current_user: email, the claimed
group list with its order preserved, and the claims. -/
structure Principal where
  email : String
  groups : List String
  claims : Claims
deriving Repr, DecidableEq

/-- Environment for token verification: verify_id_token either returns the
claims or raises (signature, audience, issuer or expiry failure). -/
structure AuthEnv where
  verify : String → Except AuthErr Claims

/-- Python "Bearer "-stripping in _read_token_from_request. -/
def bearerToken (auth : String) : Option String :=
  if ("Bearer ".data).isPrefixOf auth.data then
    some (String.mk (auth.data.drop 7))
  else none

/-- _read_token_from_request (src/auth/deps.py): prefer the Authorization
header when it carries a Bearer token, else a non-empty id_token cookie, else
fail 401. -/
def _read_token_from_request (req : Request) : Except AuthErr String :=
  match (req.authorizationHeader.getD "") |> bearerToken with
  | some tok => .ok tok
  | none =>
    match req.idTokenCookie with
    | some tok => if tok == "" then .error .missingToken else .ok tok
    | none => .error .missingToken

/-- _check_allowlist (src/auth/deps.py): reject 403 when the email has no
record or the record is not active; when an expected role is given, accept an
exact match and also let a Supervisor record satisfy an Agent requirement. -/
def _check_allowlist (db : DB) (email : String) (expected_role : Option String) :
    Except AuthErr Unit :=
  match findByEmail db email with
  | none => .error .notAuthorized
  | some row =>
    if row.status != "active" then .error .notAuthorized
    else
      match expected_role with
      | none => .ok ()
      | some er =>
        if row.role != er then
          if er == "Agent" && row.role == "Supervisor" then .ok ()
          else .error .roleMismatch
        else .ok ()

/-- current_user (src/auth/deps.py): read the credential, verify it, check the
email domain, require at least one recognized group among the claimed groups,
check the allowlist record (active only, no role expectation), and return the
principal. -/
def current_user (env : AuthEnv) (db : DB) (req : Request) : Except AuthErr Principal := do
  let token ← _read_token_from_request req
  let claims ← env.verify token
  let email := lowerStr (claims.email.getD "")
  if email == "" || !(is_allowed_email email) then throw .domainNotAllowed
  let groupsList := extract_groups claims
  if !(groupsList.any (fun g => ALLOWED_GROUPS.contains g)) then throw .groupNotPresent
  let _ ← _check_allowlist db email none
  return { email := email, groups := groupsList, claims := claims }

/-- require_supervisor (src/auth/deps.py): current_user, then require the
Supervisor group among the claimed groups. -/
def require_supervisor (env : AuthEnv) (db : DB) (req : Request) : Except AuthErr Principal :=
  match current_user env db req with
  | .error e => .error e
  | .ok user =>
    if !(user.groups.contains "Supervisor") then .error .supervisorRequired
    else .ok user

/-- Errors raised by the invite endpoint before or during the DB transaction:
403 when the caller lacks the Supervisor group, 400 for a role outside the two
recognized roles, 400 for an email outside the allowed domain. -/
inductive InviteErr where
  | supervisorRequired
  | invalidRole
  | invalidDomain
deriving Repr, DecidableEq

/-- Response body of the invite endpoint. The invite_url is the frontend base
with the token appended, so the token component represents it here. -/
structure InviteResp where
  email : String
  role : String
  status : String
  inviteToken : String
  expiresAt : Int
  emailSent : Bool
deriving Repr, DecidableEq

/-- invite_user (src/auth/invite_api.py). The freshly generated
secrets.token_urlsafe value is the tok parameter; expiry is now plus
INVITE_EXP_DAYS days (expDays, in seconds: days times 86400); emailOk tells
whether the best-effort n8n notification call succeeded (it does not affect
the database transition). Gates in source order: Supervisor group on the
caller, role in the two recognized values, email in the allowed domain. Then:
a revoked record returns to pending with the new token; a pending or active
record keeps its status while role, token, expiry and invited_by are
rewritten; an absent record is inserted as pending. -/
def invite_user (db : DB) (me : Principal) (bodyEmail bodyRole : String)
    (tok : String) (now : Int) (expDays : Int) (emailOk : Bool) :
    DB × Except InviteErr InviteResp :=
  if !(me.groups.contains "Supervisor") then (db, .error .supervisorRequired)
  else if !(bodyRole == "Agent" || bodyRole == "Supervisor") then (db, .error .invalidRole)
  else if !(strEndsWith (lowerStr bodyEmail) "@musclepoints.com") then (db, .error .invalidDomain)
  else
    let emailLower := lowerStr bodyEmail
    let exp := now + expDays * 86400
    match findByEmail db emailLower with
    | some existing =>
      if existing.status == "revoked" then
        let upd := updateRows db (fun r => r.email == emailLower)
          (fun r =>
            { r with status := "pending", role := bodyRole, token := some tok,
                     tokenExpiresAt := some exp, invitedBy := some me.email, updatedAt := now })
        (upd.1, .ok { email := bodyEmail, role := bodyRole, status := "pending",
                      inviteToken := tok, expiresAt := exp, emailSent := emailOk })
      else
        let upd := updateRows db (fun r => r.email == emailLower)
          (fun r =>
            { r with role := bodyRole, token := some tok,
                     tokenExpiresAt := some exp, invitedBy := some me.email, updatedAt := now })
        (upd.1, .ok { email := bodyEmail, role := bodyRole, status := existing.status,
                      inviteToken := tok, expiresAt := exp, emailSent := emailOk })
    | none =>
      let newRec : AllowRec :=
        { email := emailLower, role := bodyRole, status := "pending",
          invitedBy := some me.email, token := some tok, tokenExpiresAt := some exp,
          createdAt := now, updatedAt := now }
      (db ++ [newRec], .ok { email := bodyEmail, role := bodyRole, status := "pending",
                             inviteToken := tok, expiresAt := exp, emailSent := emailOk })

/-- Error of the composed invite endpoint: an authentication failure from the
current_user dependency, or a failure of the handler body. -/
inductive InviteEndpointErr where
  | auth (e : AuthErr)
  | invite (e : InviteErr)
deriving Repr, DecidableEq

/-- The invite endpoint as exposed: the current_user dependency resolves the
caller, then invite_user runs with the resulting principal. -/
def invite_endpoint (env : AuthEnv) (db : DB) (req : Request)
    (bodyEmail bodyRole tok : String) (now expDays : Int) (emailOk : Bool) :
    DB × Except InviteEndpointErr InviteResp :=
  match current_user env db req with
  | .error e => (db, .error (.auth e))
  | .ok me =>
    let res := invite_user db me bodyEmail bodyRole tok now expDays emailOk
    (res.1, res.2.mapError .invite)

/-- The unverified claims of an id_token as seen by
jwt.get_unverified_claims: the token fails to parse, or parses with an
optional numeric exp claim. -/
inductive IdTokenClaims where
  | unparsable
  | parsed (exp : Option Int)
deriving Repr, DecidableEq

/-- get_token_expiration_seconds (src/auth/cognito.py): remaining validity in
seconds from the unverified exp claim, minus a 60 second clock-skew margin,
clamped at zero; 3600 when the token cannot be parsed or the exp claim is
missing. The Python guard is the falsy test "if not exp", so an exp claim
equal to 0 also takes the 3600 fallback. -/
def get_token_expiration_seconds (tok : IdTokenClaims) (now : Int) : Int :=
  match tok with
  | .unparsable => 3600
  | .parsed none => 3600
  | .parsed (some exp) =>
    if exp == 0 then 3600
    else max 0 (exp - now - 60)

/-- auth_exchange cookie lifetime (src/main.py lines 279 and 292): the cookie
max_age passed to response.set_cookie is exactly the value of
get_token_expiration_seconds for the id_token being stored. -/
def auth_exchange_cookie_max_age (tok : IdTokenClaims) (now : Int) : Int :=
  get_token_expiration_seconds tok now

/-- One JWKS entry; the kid field is optional as k.get can return nothing. -/
structure Jwk where
  kid : Option String
deriving Repr, DecidableEq

/-- The published key set: the list under the keys field. -/
structure Jwks where
  keys : List Jwk
deriving Repr, DecidableEq

/-- State of the module-level lru_cache around _fetch_jwks plus a count of
network fetches performed (for stating how many fetches an operation did). -/
structure KeyCacheState where
  cache : Option Jwks
  fetchCount : Nat
deriving Repr, DecidableEq

/-- Errors surfaced by the key path: 502 when the network fetch fails, 401
when the key id is absent even after the refresh. -/
inductive KeyErr where
  | fetchFailed
  | keyNotFound
deriving Repr, DecidableEq

/-- _fetch_jwks (src/auth/cognito.py) under lru_cache: return the cached key
set when present; otherwise perform the network fetch (the environment maps
the index of the fetch to its outcome), caching a success and raising 502 on a
request failure. -/
def _fetch_jwks (env : Nat → Except Unit Jwks) (st : KeyCacheState) :
    KeyCacheState × Except KeyErr Jwks :=
  match st.cache with
  | some j => (st, .ok j)
  | none =>
    match env st.fetchCount with
    | .ok j => ({ cache := some j, fetchCount := st.fetchCount + 1 }, .ok j)
    | .error _ => ({ st with fetchCount := st.fetchCount + 1 }, .error .fetchFailed)

/-- The linear scan over jwks keys matching k.get kid against the wanted kid. -/
def findKey (j : Jwks) (kid : String) : Option Jwk :=
  j.keys.find? (fun k => k.kid == some kid)

/-- _get_key (src/auth/cognito.py): look the kid up in the cached key set; on
a miss clear the cache and refetch exactly once (a refetch failure is 502),
and only when the refreshed set still lacks the kid fail 401. -/
def _get_key (env : Nat → Except Unit Jwks) (st : KeyCacheState) (kid : String) :
    KeyCacheState × Except KeyErr Jwk :=
  match _fetch_jwks env st with
  | (st1, .error e) => (st1, .error e)
  | (st1, .ok jwks) =>
    match findKey jwks kid with
    | some k => (st1, .ok k)
    | none =>
      let st2 : KeyCacheState := { st1 with cache := none }
      match _fetch_jwks env st2 with
      | (st3, .error _) => (st3, .error .fetchFailed)
      | (st3, .ok jwks2) =>
        match findKey jwks2 kid with
        | some k => (st3, .ok k)
        | none => (st3, .error .keyNotFound)

/-- The JSON document stored in the reason column by _audit_admin_change. -/
structure AuditReason where
  action : String
  dbFrom : Option String
  dbTo : Option String
  cognitoUsername : Option String
  cognitoAfter : List String
  tokensRevoked : Bool
  statusMsg : String
deriving Repr, DecidableEq

/-- One row of auth_login_events as written by _audit_admin_change. -/
structure AuditEntry where
  email : String
  providerSub : String
  groups : List String
  result : String
  reason : AuditReason
  userAgent : String
deriving Repr, DecidableEq

/-- The two tables the role-sync and status endpoints touch: invited_users and
the append-only auth_login_events audit log. -/
structure DBState where
  invited : DB
  audit : List AuditEntry
deriving Repr, DecidableEq

/-- _audit_admin_change (src/services/role_sync_service.py): INSERT one row
into auth_login_events with provider_sub admin:roles, result allowed, the
compact JSON reason, and the acting admin recorded in the user_agent column. -/
def _audit_admin_change (audit : List AuditEntry) (adminEmail targetEmail action : String)
    (dbFrom dbTo : Option String) (username : Option String) (afterGroups : List String)
    (statusMsg : String) (tokensRevoked : Bool) : List AuditEntry :=
  audit ++ [{ email := lowerStr targetEmail, providerSub := "admin:roles",
              groups := afterGroups, result := "allowed",
              reason := { action := action, dbFrom := dbFrom, dbTo := dbTo,
                          cognitoUsername := username, cognitoAfter := afterGroups,
                          tokensRevoked := tokensRevoked, statusMsg := statusMsg },
              userAgent := "admin:" ++ adminEmail }]

/-- An external-provider call raising (botocore ClientError, re-raised by the
cognito_admin helpers). -/
inductive CogErr where
  | apiError
deriving Repr, DecidableEq

/-- The boto3 Cognito admin client as an environment of oracles
(src/auth/cognito_admin.py): each call either returns or raises.
setCognitoRole returns the (before, after, changed) triple of
set_cognito_role; its error case is the RuntimeError re-raised there on a
ClientError (or a failure of the embedded group listing). -/
structure CognitoEnv where
  findUsernameByEmail : String → Except CogErr (Option String)
  setCognitoRole : String → String → Except CogErr (List String × List String × Bool)
  globalSignOut : String → Except CogErr Unit
  disableUser : String → Except CogErr Unit
  enableUser : String → Except CogErr Unit

/-- Exceptions escaping promote_or_demote: the ValueError for a target absent
from invited_users, or an uncaught provider exception. -/
inductive SyncErr where
  | userNotFound
  | cognitoError
deriving Repr, DecidableEq

/-- Result dict of promote_or_demote. -/
structure RoleSyncResult where
  ok : Bool
  dbChanged : Bool
  cognitoChanged : Bool
  tokensRevoked : Bool
  note : Option String
deriving Repr, DecidableEq

/-- Body of promote_or_demote (src/services/role_sync_service.py) as run
inside the transaction: all writes performed so far are kept in the returned
state even when an exception is raised; the with-conn wrapper below decides
whether they commit. Steps: read the current role (auditing and raising
ValueError on a miss), update the role when it differs, resolve the Cognito
username (a raise propagates), on a miss audit and return with
cognito_changed false, otherwise apply set_cognito_role (a raise propagates),
optionally global_sign_out (its failure is swallowed), and audit. -/
def promote_or_demote_body (env : CognitoEnv) (st : DBState)
    (adminEmail targetEmail targetRole : String) (forceLogout : Bool) (now : Int) :
    DBState × Except SyncErr RoleSyncResult :=
  let target := lowerStr targetEmail
  match findByEmail st.invited target with
  | none =>
    let audit2 := _audit_admin_change st.audit adminEmail target "change:db-miss"
      none (some targetRole) none [] "user_not_in_DB" false
    ({ st with audit := audit2 }, .error .userNotFound)
  | some row =>
    let currentDbRole := row.role
    let dbChanged := currentDbRole != targetRole
    let invited2 :=
      if dbChanged then
        (updateRows st.invited (fun r => r.email == target)
          (fun r => { r with role := targetRole, updatedAt := now })).1
      else st.invited
    match env.findUsernameByEmail target with
    | .error _ => ({ st with invited := invited2 }, .error .cognitoError)
    | .ok none =>
      let audit2 := _audit_admin_change st.audit adminEmail target "change:cognito-miss"
        (some currentDbRole) (some targetRole) none []
        (if dbChanged then "cognito_user_not_found; DB updated" else "noop") false
      ({ invited := invited2, audit := audit2 },
       .ok { ok := true, dbChanged := dbChanged, cognitoChanged := false,
             tokensRevoked := false,
             note := some "Cognito user not found; will sync on first login" })
    | .ok (some username) =>
      match env.setCognitoRole username targetRole with
      | .error _ => ({ st with invited := invited2 }, .error .cognitoError)
      | .ok (_before, after, cgChanged) =>
        let tokensRevoked :=
          if forceLogout && cgChanged then
            match env.globalSignOut username with
            | .ok _ => true
            | .error _ => false
          else false
        let statusMsg := if dbChanged || cgChanged then "ok" else "noop"
        let audit2 := _audit_admin_change st.audit adminEmail target "change"
          (some currentDbRole) (some targetRole) (some username) after statusMsg tokensRevoked
        ({ invited := invited2, audit := audit2 },
         .ok { ok := true, dbChanged := dbChanged, cognitoChanged := cgChanged,
               tokensRevoked := tokensRevoked, note := none })

/-- promote_or_demote with its transaction semantics: the whole body runs
inside with conn, so an exception rolls every database write back (psycopg2
rolls back on an exception leaving the context manager) and propagates to the
caller; only a normal return commits. -/
def promote_or_demote (env : CognitoEnv) (st : DBState)
    (adminEmail targetEmail targetRole : String) (forceLogout : Bool) (now : Int) :
    DBState × Except SyncErr RoleSyncResult :=
  match promote_or_demote_body env st adminEmail targetEmail targetRole forceLogout now with
  | (st2, .ok res) => (st2, .ok res)
  | (_, .error e) => (st, .error e)

/-- Errors raised by the status endpoint: 403 without the Supervisor group,
400 for an unknown status, 404 for a missing record, 500 for an uncaught
provider exception (which also rolls the transaction back). -/
inductive StatusErr where
  | supervisorRequired
  | invalidStatus
  | notFound
  | internalError
deriving Repr, DecidableEq

/-- Response body of the status endpoint. -/
structure StatusResult where
  email : String
  status : String
  cognitoChanged : Bool
  tokensRevoked : Bool
deriving Repr, DecidableEq

/-- update_user_status (src/auth/users_api.py): Supervisor-group gate on the
claimed groups, status validation, record lookup, Cognito username lookup (an
exception becomes a rolled-back 500); transitioning to revoked clears the
token fields and best-effort disables the Cognito user then revokes its
sessions, any other status only rewrites status and best-effort re-enables the
user. No audit row is written anywhere on this path. -/
def update_user_status (env : CognitoEnv) (st : DBState) (me : Principal)
    (email newStatus : String) (now : Int) : DBState × Except StatusErr StatusResult :=
  if !(me.groups.contains "Supervisor") then (st, .error .supervisorRequired)
  else if !(newStatus == "pending" || newStatus == "active" || newStatus == "revoked") then
    (st, .error .invalidStatus)
  else
    let emailLower := lowerStr email
    match findByEmail st.invited emailLower with
    | none => (st, .error .notFound)
    | some _row =>
      match env.findUsernameByEmail emailLower with
      | .error _ => (st, .error .internalError)
      | .ok usernameOpt =>
        if newStatus == "revoked" then
          let invited2 := (updateRows st.invited (fun r => r.email == emailLower)
            (fun r =>
              { r with status := newStatus, token := none,
                       tokenExpiresAt := none, updatedAt := now })).1
          match usernameOpt with
          | none =>
            ({ st with invited := invited2 },
             .ok { email := emailLower, status := newStatus,
                   cognitoChanged := false, tokensRevoked := false })
          | some u =>
            match env.disableUser u with
            | .error _ =>
              ({ st with invited := invited2 },
               .ok { email := emailLower, status := newStatus,
                     cognitoChanged := false, tokensRevoked := false })
            | .ok _ =>
              let tokensRevoked :=
                match env.globalSignOut u with
                | .ok _ => true
                | .error _ => false
              ({ st with invited := invited2 },
               .ok { email := emailLower, status := newStatus,
                     cognitoChanged := true, tokensRevoked := tokensRevoked })
        else
          let invited2 := (updateRows st.invited (fun r => r.email == emailLower)
            (fun r => { r with status := newStatus, updatedAt := now })).1
          match usernameOpt with
          | none =>
            ({ st with invited := invited2 },
             .ok { email := emailLower, status := newStatus,
                   cognitoChanged := false, tokensRevoked := false })
          | some u =>
            match env.enableUser u with
            | .error _ =>
              ({ st with invited := invited2 },
               .ok { email := emailLower, status := newStatus,
                     cognitoChanged := false, tokensRevoked := false })
            | .ok _ =>
              ({ st with invited := invited2 },
               .ok { email := emailLower, status := newStatus,
                     cognitoChanged := true, tokensRevoked := false })

/-! Concrete fixtures used by witnesses and counterexamples. -/

/-- A pending invitation with a live token, expiring at time 200. -/
def recPend : AllowRec :=
  { email := "u@musclepoints.com", role := "Agent", status := "pending",
    invitedBy := some "boss@musclepoints.com", token := some "tk1",
    tokenExpiresAt := some 200, createdAt := 0, updatedAt := 0 }

/-- An already active record that still carries a dangling token. -/
def recActive : AllowRec :=
  { email := "w@musclepoints.com", role := "Supervisor", status := "active",
    invitedBy := some "boss@musclepoints.com", token := some "tk2",
    tokenExpiresAt := some 200, createdAt := 0, updatedAt := 0 }

/-- An active allowlist record whose DB role is Agent. -/
def recAgentActive : AllowRec :=
  { email := "u@musclepoints.com", role := "Agent", status := "active",
    invitedBy := some "boss@musclepoints.com", token := none,
    tokenExpiresAt := none, createdAt := 0, updatedAt := 0 }

/-- An active allowlist record whose DB role is Supervisor. -/
def recSupActive : AllowRec :=
  { email := "v@musclepoints.com", role := "Supervisor", status := "active",
    invitedBy := some "boss@musclepoints.com", token := none,
    tokenExpiresAt := none, createdAt := 0, updatedAt := 0 }

/-- Claims of a credential for u-at-musclepoints asserting the Supervisor
group. -/
def claimsSupGroup : Claims :=
  { email := some "u@musclepoints.com", cognitoGroups := .strList ["Supervisor"] }

/-- Claims of a credential for v-at-musclepoints asserting only the Agent
group. -/
def claimsAgentGroup : Claims :=
  { email := some "v@musclepoints.com", cognitoGroups := .strList ["Agent"] }

/-- Verifier accepting exactly the literal token tokSup with claimsSupGroup. -/
def envSupGroup : AuthEnv :=
  { verify := fun t => if t == "tokSup" then .ok claimsSupGroup else .error .tokenInvalid }

/-- Verifier accepting exactly the literal token tokAgent with
claimsAgentGroup. -/
def envAgentGroup : AuthEnv :=
  { verify := fun t => if t == "tokAgent" then .ok claimsAgentGroup else .error .tokenInvalid }

/-- Request carrying tokSup as a bearer header. -/
def reqSup : Request := { authorizationHeader := some "Bearer tokSup", idTokenCookie := none }

/-- Request carrying tokAgent as a bearer header. -/
def reqAgent : Request := { authorizationHeader := some "Bearer tokAgent", idTokenCookie := none }

/-- A supervisor principal (as produced by current_user from claimsSupGroup). -/
def prinSup : Principal :=
  { email := "u@musclepoints.com", groups := ["Supervisor"], claims := claimsSupGroup }

/-- A principal whose credential asserts only the Agent group. -/
def prinAgentGroups : Principal :=
  { email := "v@musclepoints.com", groups := ["Agent"], claims := claimsAgentGroup }

/-- Cognito environment in which every provider call succeeds: the target has
a provider identity whose groups become exactly the requested one. -/
def cogEnvOk : CognitoEnv :=
  { findUsernameByEmail := fun _ => .ok (some "cog-user"),
    setCognitoRole := fun _ target => .ok (["Agent"], [target], true),
    globalSignOut := fun _ => .ok (),
    disableUser := fun _ => .ok (),
    enableUser := fun _ => .ok () }

/-- Cognito environment in which the identity lookup succeeds but the group
mirroring call raises an API error. -/
def cogEnvSetRoleFails : CognitoEnv :=
  { findUsernameByEmail := fun _ => .ok (some "cog-user"),
    setCognitoRole := fun _ _ => .error .apiError,
    globalSignOut := fun _ => .ok (),
    disableUser := fun _ => .ok (),
    enableUser := fun _ => .ok () }

/-- Cognito environment in which the target has no provider identity. -/
def cogEnvNoUser : CognitoEnv :=
  { findUsernameByEmail := fun _ => .ok none,
    setCognitoRole := fun _ _ => .error .apiError,
    globalSignOut := fun _ => .ok (),
    disableUser := fun _ => .ok (),
    enableUser := fun _ => .ok () }

/-- Database state holding one Agent record and an empty audit log. -/
def stAgent : DBState := { invited := [recAgentActive], audit := [] }

/-- A published key set holding only key id k1. -/
def jwksK1 : Jwks := { keys := [{ kid := some "k1" }] }

/-- A published key set holding only key id k2 (after rotation). -/
def jwksK2 : Jwks := { keys := [{ kid := some "k2" }] }

/-- Fetch oracle: every network fetch returns the rotated key set jwksK2. -/
def fetchAlwaysK2 : Nat → Except Unit Jwks := fun _ => .ok jwksK2

/-- Fetch oracle: every network fetch fails. -/
def fetchFails : Nat → Except Unit Jwks := fun _ => .error ()

/-! Helper lemmas about the table operations. -/

theorem char_toNat_ofNat_valid (n : Nat) (h : n.isValidChar) : (Char.ofNat n).toNat = n := by
  unfold Char.ofNat
  rw [dif_pos h]
  rfl

theorem char_toLower_idem (c : Char) : c.toLower.toLower = c.toLower := by
  by_cases h : c.toNat ≥ 65 ∧ c.toNat ≤ 90
  · have hv : Nat.isValidChar (c.toNat + 32) := Or.inl (by omega)
    have ht : (Char.ofNat (c.toNat + 32)).toNat = c.toNat + 32 := char_toNat_ofNat_valid _ hv
    have h1 : c.toLower = Char.ofNat (c.toNat + 32) := by
      simp only [Char.toLower]
      rw [if_pos h]
    rw [h1]
    simp only [Char.toLower, ht]
    rw [if_neg (by omega)]
  · have h1 : c.toLower = c := by
      simp only [Char.toLower]
      rw [if_neg h]
    rw [h1, h1]

theorem lowerStr_idem (s : String) : lowerStr (lowerStr s) = lowerStr s := by
  unfold lowerStr
  simp [List.map_map, Function.comp_def, char_toLower_idem]

theorem findByEmail_map_if (db : DB) (e : String) (p : AllowRec → Bool)
    (f : AllowRec → AllowRec) (hf : ∀ r, (f r).email = r.email) :
    findByEmail (db.map (fun r => if p r then f r else r)) e
      = (findByEmail db e).map (fun r => if p r then f r else r) := by
  induction db with
  | nil => rfl
  | cons a t ih =>
    simp only [List.map_cons, findByEmail, List.find?]
    have he : ((if p a then f a else a).email == e) = (a.email == e) := by
      by_cases hp : p a <;> simp [hp, hf a]
    rw [he]
    cases ha : (a.email == e) with
    | true => simp
    | false => simpa [findByEmail] using ih

theorem findByEmail_of_uniq (db : DB) (row : AllowRec)
    (hmem : row ∈ db) (huniq : ∀ r' ∈ db, r'.email = row.email → r' = row) :
    findByEmail db row.email = some row := by
  induction db with
  | nil => cases hmem
  | cons a t ih =>
    simp only [findByEmail, List.find?]
    cases ha : (a.email == row.email) with
    | true =>
      have : a = row := huniq a (List.mem_cons_self a t) (by simpa using ha)
      simp [this]
    | false =>
      have hmem2 : row ∈ t := by
        rcases List.mem_cons.mp hmem with h | h
        · subst h
          simp at ha
        · exact h
      exact ih hmem2 (fun r' hr' h => huniq r' (List.mem_cons_of_mem a hr') h)

theorem findByToken_mem (db : DB) (t : String) (row : AllowRec)
    (h : findByToken db t = some row) : row ∈ db ∧ row.token = some t := by
  refine ⟨List.mem_of_find?_eq_some h, ?_⟩
  have := List.find?_some h
  simpa using this

theorem findByToken_eq_none_iff (db : DB) (t : String) :
    findByToken db t = none ↔ ∀ r ∈ db, r.token ≠ some t := by
  unfold findByToken
  rw [List.find?_eq_none]
  constructor
  · intro h r hr heq
    exact h r hr (by simpa using heq)
  · intro h r hr hb
    exact h r hr (by simpa using hb)

theorem updateRows_count_zero (db : DB) (p : AllowRec → Bool) (f : AllowRec → AllowRec)
    (h : ∀ r ∈ db, p r = false) : (updateRows db p f).2 = 0 := by
  unfold updateRows
  rw [List.length_eq_zero, List.filter_eq_nil_iff]
  intro a ha
  simp [h a ha]

theorem updateRows_count_ne_zero (db : DB) (p : AllowRec → Bool) (f : AllowRec → AllowRec)
    (row : AllowRec) (hmem : row ∈ db) (hp : p row = true) : (updateRows db p f).2 ≠ 0 := by
  unfold updateRows
  intro hlen
  rw [List.length_eq_zero, List.filter_eq_nil_iff] at hlen
  exact absurd hp (by simpa using hlen row hmem)

/-! Claim theorems. -/

/-- C5: an accept call whose token matches no row fails 400
invalid-or-expired; when a row matches but its token_expires_at lies strictly
in the past of UTC now, the call fails with the expiry-specific 400 error and
leaves the table unchanged even though the token string matches; when the
expiry lies strictly in the future, even by one second, the expiry check
passes. -/
theorem accept_expiry_correctness (db : DB) (now : Int) (tok : String)
    (hnb : isBlank tok = false) :
    (findByToken db tok = none →
      accept_invite db now tok = (db, .error .invalidOrExpired)) ∧
    (∀ row e, findByToken db tok = some row → row.tokenExpiresAt = some e → e < now →
      accept_invite db now tok = (db, .error .expired)) ∧
    (∀ row e, findByToken db tok = some row → row.tokenExpiresAt = some e → now < e →
      (accept_invite db now tok).2 ≠ .error .expired) := by
  refine ⟨?_, ?_, ?_⟩
  · intro h
    simp [accept_invite, accept_invite_at, hnb, h]
  · intro row e hfind hexp hlt
    simp [accept_invite, accept_invite_at, hnb, hfind, tokenExpired, hexp, hlt]
  · intro row e hfind hexp hlt
    have hnlt : ¬ e < now := by omega
    simp only [accept_invite, accept_invite_at, hnb, Bool.false_eq_true, if_false, hfind,
      tokenExpired, hexp, hnlt, decide_eq_true_eq, ite_false]
    by_cases hs : (row.status == "active") <;> simp only [hs, if_true, if_false]
    · simp
    · by_cases hz :
        ((updateRows db (fun r => r.email == row.email && r.token == some tok)
          (activateRecord now)).2 == 0) <;> simp [hz]

/-- Witness for C5 at concrete inputs: an unknown token is rejected as
invalid, the token of recPend (expiry 200) is rejected as expired at time
300, and at time 199 the expiry check passes. -/
theorem accept_expiry_correctness_witness :
    accept_invite [recPend] 100 "zz" = ([recPend], .error .invalidOrExpired) ∧
    accept_invite [recPend] 300 "tk1" = ([recPend], .error .expired) ∧
    (accept_invite [recPend] 199 "tk1").2 ≠ .error .expired := by
  refine ⟨(accept_expiry_correctness [recPend] 100 "zz" (by decide)).1 (by decide),
    (accept_expiry_correctness [recPend] 300 "tk1" (by decide)).2.1 recPend 200
      (by decide) (by decide) (by decide),
    (accept_expiry_correctness [recPend] 199 "tk1" (by decide)).2.2 recPend 200
      (by decide) (by decide) (by decide)⟩

/-- C6: accepting an unexpired matching token whose record is already active
succeeds, clears token and token_expires_at, and leaves status and role
(indeed every other column) unchanged. -/
theorem accept_active_idempotence (db : DB) (now : Int) (tok : String) (row : AllowRec)
    (hnb : isBlank tok = false)
    (hfind : findByToken db tok = some row)
    (hactive : row.status = "active")
    (hexp : ∀ e, row.tokenExpiresAt = some e → ¬ e < now)
    (huniq : ∀ r' ∈ db, r'.email = row.email → r' = row) :
    (accept_invite db now tok).2 = .ok row.email ∧
    findByEmail (accept_invite db now tok).1 row.email
      = some { row with token := none, tokenExpiresAt := none, updatedAt := now } := by
  have hmem : row ∈ db := (findByToken_mem db tok row hfind).1
  have hcond : tokenExpired row.tokenExpiresAt now = false := by
    cases h : row.tokenExpiresAt with
    | none => rfl
    | some e => simpa [tokenExpired] using hexp e h
  constructor
  · simp [accept_invite, accept_invite_at, hnb, hfind, hcond, hactive]
  · simp only [accept_invite, accept_invite_at, hnb, Bool.false_eq_true, if_false, hfind,
      hcond, hactive, beq_self_eq_true, if_true]
    have h1 : (updateRows db (fun r => r.email == row.email) (clearTokenFields now)).1
        = db.map (fun r => if (r.email == row.email) then clearTokenFields now r else r) := rfl
    rw [h1, findByEmail_map_if db row.email (fun r => r.email == row.email)
      (clearTokenFields now) (fun r => rfl),
      findByEmail_of_uniq db row hmem huniq]
    simp [clearTokenFields, hactive]

/-- C4: on a non-active record with a valid unexpired token, activation is the
single conditional update keyed by email and token: the first consumption
succeeds and leaves the record active with a null token, and a second
consumption of the same token whose read saw the old state observes zero
affected rows at its update and fails 400 already-consumed, so exactly one of
the two calls succeeds. -/
theorem accept_single_consumption (db : DB) (now : Int) (tok : String) (row : AllowRec)
    (hnb : isBlank tok = false)
    (hfind : findByToken db tok = some row)
    (hstatus : row.status ≠ "active")
    (hexp : ∀ e, row.tokenExpiresAt = some e → ¬ e < now)
    (huniq : ∀ r' ∈ db, r'.email = row.email → r' = row) :
    (accept_invite db now tok).2 = .ok row.email ∧
    findByEmail (accept_invite db now tok).1 row.email =
      some
        { row with status := "active", token := none, tokenExpiresAt := none,
                   updatedAt := now } ∧
    accept_invite_at db (accept_invite db now tok).1 now tok
      = ((accept_invite db now tok).1, .error .alreadyConsumed) := by
  have hmem : row ∈ db := (findByToken_mem db tok row hfind).1
  have htok : row.token = some tok := (findByToken_mem db tok row hfind).2
  have hcond : tokenExpired row.tokenExpiresAt now = false := by
    cases h : row.tokenExpiresAt with
    | none => rfl
    | some e => simpa [tokenExpired] using hexp e h
  have hsb : (row.status == "active") = false := by simpa using hstatus
  have hp : (fun r => r.email == row.email && r.token == some tok) row = true := by
    simp [htok]
  have hnz : (updateRows db (fun r => r.email == row.email && r.token == some tok)
      (activateRecord now)).2 ≠ 0 :=
    updateRows_count_ne_zero db _ _ row hmem hp
  have hz : ((updateRows db (fun r => r.email == row.email && r.token == some tok)
      (activateRecord now)).2 == 0) = false := by simpa using hnz
  have hres : accept_invite db now tok
      = ((updateRows db (fun r => r.email == row.email && r.token == some tok)
          (activateRecord now)).1, .ok row.email) := by
    simp [accept_invite, accept_invite_at, hnb, hfind, hcond, hsb, hz]
  have hmap : (updateRows db (fun r => r.email == row.email && r.token == some tok)
      (activateRecord now)).1
      = db.map (fun r => if (r.email == row.email && r.token == some tok) then
          activateRecord now r else r) := rfl
  have hall : ∀ r2 ∈ (updateRows db (fun r => r.email == row.email && r.token == some tok)
      (activateRecord now)).1,
      (fun r => r.email == row.email && r.token == some tok) r2 = false := by
    rw [hmap]
    intro r2 hr2
    rcases List.mem_map.mp hr2 with ⟨r0, hr0, rfl⟩
    by_cases hp0 : (r0.email == row.email && r0.token == some tok) = true
    · simp [hp0, activateRecord]
    · simp only [Bool.not_eq_true] at hp0
      simp [hp0]
  refine ⟨by rw [hres], ?_, ?_⟩
  · rw [hres, hmap, findByEmail_map_if db row.email
      (fun r => r.email == row.email && r.token == some tok) (activateRecord now)
      (fun r => rfl), findByEmail_of_uniq db row hmem huniq]
    simp [htok, activateRecord]
  · rw [hres]
    have hz2 : (updateRows (updateRows db
        (fun r => r.email == row.email && r.token == some tok) (activateRecord now)).1
        (fun r => r.email == row.email && r.token == some tok) (activateRecord now)).2 = 0 :=
      updateRows_count_zero _ _ _ hall
    simp [accept_invite_at, hnb, hfind, hcond, hsb, hz2]

/-- Witness for C4: consuming the token of the pending recPend at time 100
succeeds and activates the record; a concurrent second consumption that read
the original table fails 400 already-consumed against the committed state. -/
theorem accept_single_consumption_witness :
    (accept_invite [recPend] 100 "tk1").2 = .ok "u@musclepoints.com" ∧
    findByEmail (accept_invite [recPend] 100 "tk1").1 "u@musclepoints.com" =
      some
        { recPend with status := "active", token := none, tokenExpiresAt := none,
                       updatedAt := 100 } ∧
    accept_invite_at [recPend] (accept_invite [recPend] 100 "tk1").1 100 "tk1"
      = ((accept_invite [recPend] 100 "tk1").1, .error .alreadyConsumed) := by
  exact accept_single_consumption [recPend] 100 "tk1" recPend (by decide) (by decide)
    (by decide) (by decide) (by decide)

/-- Witness for C6: accepting the dangling token of the already active
recActive at time 100 succeeds and clears the token fields while keeping
status active. -/
theorem accept_active_idempotence_witness :
    (accept_invite [recActive] 100 "tk2").2 = .ok "w@musclepoints.com" ∧
    findByEmail (accept_invite [recActive] 100 "tk2").1 "w@musclepoints.com"
      = some { recActive with token := none, tokenExpiresAt := none, updatedAt := 100 } := by
  exact accept_active_idempotence [recActive] 100 "tk2" recActive (by decide) (by decide)
    (by decide) (by decide) (by decide)

/-- C3 counterexample: a caller whose allowlist DB role is Agent but whose
verified credential asserts the Supervisor group is accepted by
require_supervisor, so the check does not re-run the allowlist lookup with an
expected Supervisor role and does not fail for every Agent-role principal. -/
theorem require_supervisor_db_role_cex :
    findByEmail [recAgentActive] "u@musclepoints.com" = some recAgentActive ∧
    recAgentActive.role = "Agent" ∧
    require_supervisor envSupGroup [recAgentActive] reqSup = .ok prinSup := by
  refine ⟨rfl, rfl, ?_⟩
  decide

/-- C3 amended: require_supervisor authenticates via current_user, whose
allowlist check carries no expected role (record existence and active status
only), and then tests the credential-asserted group list: it succeeds exactly
when current_user succeeds and that list contains Supervisor; the allowlist DB
role of the caller is never consulted by the extra check. -/
theorem require_supervisor_token_groups (env : AuthEnv) (db : DB) (req : Request)
    (u : Principal) :
    require_supervisor env db req = .ok u ↔
      (current_user env db req = .ok u ∧ "Supervisor" ∈ u.groups) := by
  unfold require_supervisor
  cases h : current_user env db req with
  | error e => simp
  | ok user =>
    by_cases hm : user.groups.contains "Supervisor"
    · simp only [hm, Bool.not_true, Bool.false_eq_true, if_false]
      constructor
      · intro hok
        cases hok
        exact ⟨rfl, by simpa using hm⟩
      · intro ⟨hok, _⟩
        cases hok
        rfl
    · simp only [Bool.not_eq_true] at hm
      simp only [hm, Bool.not_false, if_true]
      constructor
      · intro hok
        cases hok
      · intro ⟨hok, hmem⟩
        cases hok
        exact absurd hmem (by simpa using hm)

/-- C7: for a Supervisor caller, a valid role and an allowed domain, invite on
an absent record inserts a pending record with the fresh token and expiry now
plus the configured TTL; invite on a pending or active record preserves status
while installing the new token and expiry and updating role and invited_by;
invite on a revoked record returns it to pending with the new token; and after
any of these, a superseded old token different from the fresh one matches no
row, so accepting it fails 400 invalid-or-expired. -/
theorem invite_lifecycle (db : DB) (me : Principal) (bodyEmail bodyRole tok : String)
    (now expDays : Int) (emailOk : Bool)
    (hg : me.groups.contains "Supervisor" = true)
    (hrole : bodyRole = "Agent" ∨ bodyRole = "Supervisor")
    (hdom : strEndsWith (lowerStr bodyEmail) "@musclepoints.com" = true) :
    (findByEmail db (lowerStr bodyEmail) = none →
      invite_user db me bodyEmail bodyRole tok now expDays emailOk =
        (db ++
          [{ email := lowerStr bodyEmail, role := bodyRole, status := "pending",
             invitedBy := some me.email, token := some tok,
             tokenExpiresAt := some (now + expDays * 86400),
             createdAt := now, updatedAt := now }],
         .ok
           { email := bodyEmail, role := bodyRole, status := "pending",
             inviteToken := tok, expiresAt := now + expDays * 86400,
             emailSent := emailOk })) ∧
    (∀ ex, findByEmail db (lowerStr bodyEmail) = some ex →
      ex.status = "pending" ∨ ex.status = "active" →
      (invite_user db me bodyEmail bodyRole tok now expDays emailOk).2 =
        .ok
          { email := bodyEmail, role := bodyRole, status := ex.status,
            inviteToken := tok, expiresAt := now + expDays * 86400,
            emailSent := emailOk } ∧
      findByEmail (invite_user db me bodyEmail bodyRole tok now expDays emailOk).1
          (lowerStr bodyEmail) =
        some
          { ex with role := bodyRole, token := some tok,
                    tokenExpiresAt := some (now + expDays * 86400),
                    invitedBy := some me.email, updatedAt := now }) ∧
    (∀ ex, findByEmail db (lowerStr bodyEmail) = some ex →
      ex.status = "revoked" →
      (invite_user db me bodyEmail bodyRole tok now expDays emailOk).2 =
        .ok
          { email := bodyEmail, role := bodyRole, status := "pending",
            inviteToken := tok, expiresAt := now + expDays * 86400,
            emailSent := emailOk } ∧
      findByEmail (invite_user db me bodyEmail bodyRole tok now expDays emailOk).1
          (lowerStr bodyEmail) =
        some
          { ex with status := "pending", role := bodyRole, token := some tok,
                    tokenExpiresAt := some (now + expDays * 86400),
                    invitedBy := some me.email, updatedAt := now }) ∧
    (∀ oldTok, isBlank oldTok = false → oldTok ≠ tok →
      (∀ r' ∈ db, r'.token = some oldTok → r'.email = lowerStr bodyEmail) →
      findByToken (invite_user db me bodyEmail bodyRole tok now expDays emailOk).1 oldTok
          = none ∧
      ∀ now2,
        accept_invite (invite_user db me bodyEmail bodyRole tok now expDays emailOk).1
            now2 oldTok =
          ((invite_user db me bodyEmail bodyRole tok now expDays emailOk).1,
           .error .invalidOrExpired)) := by
  have hroleb : (bodyRole == "Agent" || bodyRole == "Supervisor") = true := by
    rcases hrole with h | h <;> simp [h]
  have g1 : (!(me.groups.contains "Supervisor")) = false := by
    rw [hg]
    rfl
  have g2 : (!(bodyRole == "Agent" || bodyRole == "Supervisor")) = false := by
    rw [hroleb]
    rfl
  have g3 : (!(strEndsWith (lowerStr bodyEmail) "@musclepoints.com")) = false := by
    rw [hdom]
    rfl
  refine ⟨?_, ?_, ?_, ?_⟩
  · intro hnone
    unfold invite_user
    simp only [g1, g2, g3, Bool.false_eq_true, if_false, hnone]
  · intro ex hsome hst
    have hexEmail : (ex.email == lowerStr bodyEmail) = true := by
      simpa using List.find?_some hsome
    have hrev : (ex.status == "revoked") = false := by
      rcases hst with h | h <;> simp [h]
    unfold invite_user
    simp only [g1, g2, g3, Bool.false_eq_true, if_false, hsome, hrev]
    refine ⟨trivial, ?_⟩
    rw [show (updateRows db (fun r => r.email == lowerStr bodyEmail)
        (fun r =>
          { r with role := bodyRole, token := some tok,
                   tokenExpiresAt := some (now + expDays * 86400),
                   invitedBy := some me.email, updatedAt := now })).1
      = db.map (fun r => if (r.email == lowerStr bodyEmail) then
          { r with role := bodyRole, token := some tok,
                   tokenExpiresAt := some (now + expDays * 86400),
                   invitedBy := some me.email, updatedAt := now } else r) from rfl]
    rw [findByEmail_map_if db (lowerStr bodyEmail) (fun r => r.email == lowerStr bodyEmail)
      (fun r =>
        { r with role := bodyRole, token := some tok,
                 tokenExpiresAt := some (now + expDays * 86400),
                 invitedBy := some me.email, updatedAt := now }) (fun r => rfl), hsome]
    have heq : ex.email = lowerStr bodyEmail := by simpa using hexEmail
    simp [heq]
  · intro ex hsome hrevEq
    have hexEmail : (ex.email == lowerStr bodyEmail) = true := by
      simpa using List.find?_some hsome
    have hrev : (ex.status == "revoked") = true := by simp [hrevEq]
    unfold invite_user
    simp only [g1, g2, g3, Bool.false_eq_true, if_false, hsome, hrev, if_true]
    refine ⟨trivial, ?_⟩
    rw [show (updateRows db (fun r => r.email == lowerStr bodyEmail)
        (fun r =>
          { r with status := "pending", role := bodyRole, token := some tok,
                   tokenExpiresAt := some (now + expDays * 86400),
                   invitedBy := some me.email, updatedAt := now })).1
      = db.map (fun r => if (r.email == lowerStr bodyEmail) then
          { r with status := "pending", role := bodyRole, token := some tok,
                   tokenExpiresAt := some (now + expDays * 86400),
                   invitedBy := some me.email, updatedAt := now } else r) from rfl]
    rw [findByEmail_map_if db (lowerStr bodyEmail) (fun r => r.email == lowerStr bodyEmail)
      (fun r =>
        { r with status := "pending", role := bodyRole, token := some tok,
                 tokenExpiresAt := some (now + expDays * 86400),
                 invitedBy := some me.email, updatedAt := now }) (fun r => rfl), hsome]
    have heq : ex.email = lowerStr bodyEmail := by simpa using hexEmail
    simp [heq]
  · intro oldTok hnbOld hneq hold
    have hkey : ∀ r2 ∈ (invite_user db me bodyEmail bodyRole tok now expDays emailOk).1,
        r2.token ≠ some oldTok := by
      cases hfe : findByEmail db (lowerStr bodyEmail) with
      | none =>
        have hred : (invite_user db me bodyEmail bodyRole tok now expDays emailOk).1 =
            db ++
              [{ email := lowerStr bodyEmail, role := bodyRole, status := "pending",
                 invitedBy := some me.email, token := some tok,
                 tokenExpiresAt := some (now + expDays * 86400),
                 createdAt := now, updatedAt := now }] := by
          unfold invite_user
          simp only [g1, g2, g3, Bool.false_eq_true, if_false, hfe]
        rw [hred]
        intro r2 hr2
        rcases List.mem_append.mp hr2 with hr2 | hr2
        · intro htk
          have hmail := hold r2 hr2 htk
          have hno := List.find?_eq_none.mp hfe r2 hr2
          exact hno (by simpa using hmail)
        · rcases List.mem_singleton.mp hr2 with rfl
          intro htk
          exact hneq (by simpa using htk.symm)
      | some ex =>
        by_cases hrev : (ex.status == "revoked") = true
        · have hred : (invite_user db me bodyEmail bodyRole tok now expDays emailOk).1 =
              db.map (fun r => if (r.email == lowerStr bodyEmail) then
                { r with status := "pending", role := bodyRole, token := some tok,
                         tokenExpiresAt := some (now + expDays * 86400),
                         invitedBy := some me.email, updatedAt := now } else r) := by
            unfold invite_user
            simp only [g1, g2, g3, Bool.false_eq_true, if_false, hfe, hrev, if_true]
            rfl
          rw [hred]
          intro r2 hr2
          rcases List.mem_map.mp hr2 with ⟨r0, hr0, rfl⟩
          by_cases hp0 : (r0.email == lowerStr bodyEmail) = true
          · simp only [hp0, if_true]
            intro htk
            exact hneq (by simpa using htk.symm)
          · simp only [hp0, Bool.false_eq_true, if_false]
            intro htk
            exact hp0 (by simpa using hold r0 hr0 htk)
        · have hrev2 : (ex.status == "revoked") = false := by
            simpa using hrev
          have hred : (invite_user db me bodyEmail bodyRole tok now expDays emailOk).1 =
              db.map (fun r => if (r.email == lowerStr bodyEmail) then
                { r with role := bodyRole, token := some tok,
                         tokenExpiresAt := some (now + expDays * 86400),
                         invitedBy := some me.email, updatedAt := now } else r) := by
            unfold invite_user
            simp only [g1, g2, g3, Bool.false_eq_true, if_false, hfe, hrev2]
            rfl
          rw [hred]
          intro r2 hr2
          rcases List.mem_map.mp hr2 with ⟨r0, hr0, rfl⟩
          by_cases hp0 : (r0.email == lowerStr bodyEmail) = true
          · simp only [hp0, if_true]
            intro htk
            exact hneq (by simpa using htk.symm)
          · simp only [hp0, Bool.false_eq_true, if_false]
            intro htk
            exact hp0 (by simpa using hold r0 hr0 htk)
    have hnone2 : findByToken
        (invite_user db me bodyEmail bodyRole tok now expDays emailOk).1 oldTok = none :=
      (findByToken_eq_none_iff _ _).mpr hkey
    refine ⟨hnone2, ?_⟩
    intro now2
    simp [accept_invite, accept_invite_at, hnbOld, hnone2]

/-- Witness for C7: inviting a fresh address creates a pending row with the
token and a seven-day expiry; re-inviting the pending recPend user with a new
token keeps status pending while replacing role, token and expiry; and the
superseded token tk1 then fails accept as invalid. -/
theorem invite_lifecycle_witness :
    invite_user [] prinSup "n@musclepoints.com" "Agent" "tA" 0 7 true =
      ([{ email := "n@musclepoints.com", role := "Agent", status := "pending",
          invitedBy := some "u@musclepoints.com", token := some "tA",
          tokenExpiresAt := some 604800, createdAt := 0, updatedAt := 0 }],
       .ok
         { email := "n@musclepoints.com", role := "Agent", status := "pending",
           inviteToken := "tA", expiresAt := 604800, emailSent := true }) ∧
    (invite_user [recPend] prinSup "u@musclepoints.com" "Supervisor" "tB" 10 7 false).2 =
      .ok
        { email := "u@musclepoints.com", role := "Supervisor", status := "pending",
          inviteToken := "tB", expiresAt := 604810, emailSent := false } ∧
    findByToken (invite_user [recPend] prinSup "u@musclepoints.com" "Supervisor" "tB"
        10 7 false).1 "tk1" = none := by
  have base := invite_lifecycle [] prinSup "n@musclepoints.com" "Agent" "tA" 0 7 true
    (by decide) (Or.inl rfl) (by decide)
  have renew := invite_lifecycle [recPend] prinSup "u@musclepoints.com" "Supervisor" "tB"
    10 7 false (by decide) (Or.inr rfl) (by decide)
  refine ⟨?_, ?_, ?_⟩
  · have h1 := base.1 (by decide)
    simpa using h1
  · exact (renew.2.1 recPend (by decide) (Or.inl (by decide))).1
  · exact (renew.2.2.2 "tk1" (by decide) (by decide) (by decide)).1

/-- C10: once current_user has authenticated the caller, the invite endpoint
rejects with the 403 Supervisor-required error exactly when the group list
asserted inside the verified credential lacks Supervisor — for every database,
so the allowlist DB role plays no part in this gate — and the endpoint result
is the handler outcome for the authenticated principal. -/
theorem invite_requires_supervisor_group (env : AuthEnv) (db : DB) (req : Request)
    (u : Principal) (bodyEmail bodyRole tok : String) (now expDays : Int) (emailOk : Bool)
    (hauth : current_user env db req = .ok u) :
    ((invite_user db u bodyEmail bodyRole tok now expDays emailOk).2
        = .error .supervisorRequired ↔ "Supervisor" ∉ u.groups) ∧
    invite_endpoint env db req bodyEmail bodyRole tok now expDays emailOk
      = ((invite_user db u bodyEmail bodyRole tok now expDays emailOk).1,
         (invite_user db u bodyEmail bodyRole tok now expDays emailOk).2.mapError .invite) := by
  constructor
  · by_cases hm : u.groups.contains "Supervisor"
    · have hmem : "Supervisor" ∈ u.groups := by simpa using hm
      have hne : (invite_user db u bodyEmail bodyRole tok now expDays emailOk).2
          ≠ .error .supervisorRequired := by
        unfold invite_user
        simp only [hm, Bool.not_true, Bool.false_eq_true, if_false]
        split
        · simp
        · split
          · simp
          · split
            · split
              · simp
              · simp
            · simp
      constructor
      · intro hcontra
        exact absurd hcontra hne
      · intro hnm
        exact absurd hmem hnm
    · have hnm : "Supervisor" ∉ u.groups := by simpa using hm
      have hr : (invite_user db u bodyEmail bodyRole tok now expDays emailOk).2
          = .error .supervisorRequired := by
        unfold invite_user
        cases hcb : u.groups.contains "Supervisor" with
        | false => simp
        | true => exact absurd hcb hm
      simp [hr, hnm]
  · unfold invite_endpoint
    rw [hauth]

/-- Witness for C10: an authenticated caller whose allowlist record has DB
role Supervisor but whose credential asserts only the Agent group is rejected
by the invite gate. -/
theorem invite_requires_supervisor_group_witness :
    recSupActive.role = "Supervisor" ∧
    (invite_user [recSupActive] prinAgentGroups "n@musclepoints.com" "Agent" "t9" 0 7
        true).2 = .error .supervisorRequired := by
  refine ⟨rfl, ?_⟩
  exact (invite_requires_supervisor_group envAgentGroup [recSupActive] reqAgent
    prinAgentGroups "n@musclepoints.com" "Agent" "t9" 0 7 true (by decide)).1.mpr (by decide)

/-- C8 counterexample: a parsable token whose exp claim equals 0 falls into
the Python falsy guard "if not exp" and yields the 3600 fallback, although the
claimed formula — exp minus now minus 60, clamped at zero — gives 0 at time
100, so the returned value is not always that formula for a present exp
claim. -/
theorem token_expiration_zero_exp_cex :
    get_token_expiration_seconds (.parsed (some 0)) 100 = 3600 ∧
    max 0 ((0 : Int) - 100 - 60) ≠ 3600 := by decide

/-- C8 amended: for a parsable token with a nonzero exp claim, the remaining
validity is the unverified exp minus current time minus a 60 second margin
clamped below at zero; an unparsable token, a missing exp claim, and also the
falsy exp claim 0 yield the fixed 3600 fallback; and the session cookie
max_age set by the auth exchange equals this computed value, never a fixed
constant. -/
theorem token_expiration_amended :
    (∀ e now, e ≠ 0 →
      get_token_expiration_seconds (.parsed (some e)) now = max 0 (e - now - 60)) ∧
    (∀ now, get_token_expiration_seconds (.parsed (some 0)) now = 3600) ∧
    (∀ now, get_token_expiration_seconds (.parsed none) now = 3600) ∧
    (∀ now, get_token_expiration_seconds .unparsable now = 3600) ∧
    (∀ t now, auth_exchange_cookie_max_age t now = get_token_expiration_seconds t now) := by
  refine ⟨?_, fun now => rfl, fun now => rfl, fun now => rfl, fun t now => rfl⟩
  intro e now he
  have hb : (e == 0) = false := by simpa using he
  simp [get_token_expiration_seconds, hb]

/-- Witness for C8 amended: a token expiring at 1000 read at time 100 leaves
840 seconds of cookie lifetime. -/
theorem token_expiration_amended_witness :
    get_token_expiration_seconds (.parsed (some 1000)) 100 = 840 := by
  have h := token_expiration_amended.1 1000 100 (by decide)
  simpa using h

/-- C9: with a populated cache, a key-id hit answers from the cache with no
fetch; a miss clears the cache and performs exactly one forced refetch,
returning the key when the refreshed set has it and failing 401 key-not-found
only when the refreshed set still lacks it; and a network failure of the
fetch — at the forced refresh or on a cold cache — surfaces as the distinct
502 fetch-failed error instead. -/
theorem key_cache_single_refresh (env : Nat → Except Unit Jwks) (jwks : Jwks)
    (n : Nat) (kid : String) :
    (∀ k, findKey jwks kid = some k →
      _get_key env { cache := some jwks, fetchCount := n } kid
        = ({ cache := some jwks, fetchCount := n }, .ok k)) ∧
    (findKey jwks kid = none → ∀ jwks2, env n = .ok jwks2 →
      ((_get_key env { cache := some jwks, fetchCount := n } kid).1.fetchCount = n + 1 ∧
       (∀ k, findKey jwks2 kid = some k →
         (_get_key env { cache := some jwks, fetchCount := n } kid).2 = .ok k) ∧
       (findKey jwks2 kid = none →
         (_get_key env { cache := some jwks, fetchCount := n } kid).2
           = .error .keyNotFound))) ∧
    (findKey jwks kid = none → env n = .error () →
      (_get_key env { cache := some jwks, fetchCount := n } kid).2 = .error .fetchFailed) ∧
    (env n = .error () →
      (_get_key env { cache := none, fetchCount := n } kid).2 = .error .fetchFailed) := by
  refine ⟨?_, ?_, ?_, ?_⟩
  · intro k hk
    simp [_get_key, _fetch_jwks, hk]
  · intro hmiss jwks2 henv
    refine ⟨?_, ?_, ?_⟩
    · cases hk2 : findKey jwks2 kid <;>
        simp [_get_key, _fetch_jwks, hmiss, henv, hk2]
    · intro k hk2
      simp [_get_key, _fetch_jwks, hmiss, henv, hk2]
    · intro hk2
      simp [_get_key, _fetch_jwks, hmiss, henv, hk2]
  · intro hmiss henv
    simp [_get_key, _fetch_jwks, hmiss, henv]
  · intro henv
    simp [_get_key, _fetch_jwks, henv]

/-- Witness for C9: with jwksK1 cached, looking up k2 after rotation performs
one refetch and succeeds from jwksK2; looking up an unknown k9 fails 401
after the single refresh; and a failing network fetch yields 502. -/
theorem key_cache_single_refresh_witness :
    (_get_key fetchAlwaysK2 { cache := some jwksK1, fetchCount := 0 } "k2").2
      = .ok { kid := some "k2" } ∧
    (_get_key fetchAlwaysK2 { cache := some jwksK1, fetchCount := 0 } "k2").1.fetchCount
      = 1 ∧
    (_get_key fetchAlwaysK2 { cache := some jwksK1, fetchCount := 0 } "k9").2
      = .error .keyNotFound ∧
    (_get_key fetchFails { cache := some jwksK1, fetchCount := 0 } "k9").2
      = .error .fetchFailed := by
  have h2 := key_cache_single_refresh fetchAlwaysK2 jwksK1 0 "k2"
  have h9 := key_cache_single_refresh fetchAlwaysK2 jwksK1 0 "k9"
  have hf := key_cache_single_refresh fetchFails jwksK1 0 "k9"
  refine ⟨?_, ?_, ?_, ?_⟩
  · exact (h2.2.1 (by decide) jwksK2 rfl).2.1 { kid := some "k2" } (by decide)
  · exact (h2.2.1 (by decide) jwksK2 rfl).1
  · exact (h9.2.1 (by decide) jwksK2 rfl).2.2 (by decide)
  · exact hf.2.2.1 (by decide) rfl

/-- C1 counterexample: with the role-mirroring call raising an API error after
the DB read, promote_or_demote propagates the exception instead of returning a
changed-false result, and the enclosing transaction rolls the role update
back: afterwards the DB still holds role Agent. -/
theorem role_sync_api_error_cex :
    promote_or_demote cogEnvSetRoleFails stAgent "boss@musclepoints.com"
        "u@musclepoints.com" "Supervisor" true 9 = (stAgent, .error .cognitoError) ∧
    (findByEmail (promote_or_demote cogEnvSetRoleFails stAgent "boss@musclepoints.com"
        "u@musclepoints.com" "Supervisor" true 9).1.invited
        "u@musclepoints.com").map (fun r => r.role) = some "Agent" := by
  refine ⟨by decide, by decide⟩

/-- C1 amended: after the DB read, only the identity-miss outcome of the
mirror step is caught: when the provider lookup returns no identity the role
change persists and an ok result with cognito_changed false is returned
without raising; but when the mirroring call itself raises an API error,
promote_or_demote re-raises and the transaction (which spans the DB update)
rolls the role change back, leaving the whole state untouched. -/
theorem role_sync_partial_failure (env : CognitoEnv) (st : DBState)
    (adminEmail targetEmail targetRole : String) (forceLogout : Bool) (now : Int)
    (row : AllowRec)
    (hrec : findByEmail st.invited (lowerStr targetEmail) = some row) :
    (env.findUsernameByEmail (lowerStr targetEmail) = .ok none →
      (promote_or_demote env st adminEmail targetEmail targetRole forceLogout now).2 =
        .ok
          { ok := true, dbChanged := row.role != targetRole, cognitoChanged := false,
            tokensRevoked := false,
            note := some "Cognito user not found; will sync on first login" } ∧
      (row.role ≠ targetRole →
        findByEmail (promote_or_demote env st adminEmail targetEmail targetRole
            forceLogout now).1.invited (lowerStr targetEmail) =
          some { row with role := targetRole, updatedAt := now })) ∧
    (∀ u, env.findUsernameByEmail (lowerStr targetEmail) = .ok (some u) →
      env.setCognitoRole u targetRole = .error .apiError →
      promote_or_demote env st adminEmail targetEmail targetRole forceLogout now
        = (st, .error .cognitoError)) := by
  have hexE : (row.email == lowerStr targetEmail) = true := by
    simpa using List.find?_some hrec
  constructor
  · intro hfu
    have hd : (row.role != targetRole) = (row.role != targetRole) := rfl
    constructor
    · unfold promote_or_demote promote_or_demote_body
      simp only [hrec, hfu]
    · intro hne
      have hb : (row.role != targetRole) = true := by simpa using hne
      unfold promote_or_demote promote_or_demote_body
      simp only [hrec, hfu, hb, if_true]
      rw [show (updateRows st.invited (fun r => r.email == lowerStr targetEmail)
          (fun r => { r with role := targetRole, updatedAt := now })).1
        = st.invited.map (fun r => if (r.email == lowerStr targetEmail) then
            { r with role := targetRole, updatedAt := now } else r) from rfl]
      rw [findByEmail_map_if st.invited (lowerStr targetEmail)
        (fun r => r.email == lowerStr targetEmail)
        (fun r => { r with role := targetRole, updatedAt := now }) (fun r => rfl), hrec]
      have heq : row.email = lowerStr targetEmail := by simpa using hexE
      simp [heq]
  · intro u hfu hset
    unfold promote_or_demote promote_or_demote_body
    simp only [hrec, hfu, hset]

/-- Witness for C1 amended: on stAgent, an identity miss leaves the promoted
role Supervisor committed with cognito_changed false, while a raising mirror
call returns the untouched state with the propagated error. -/
theorem role_sync_partial_failure_witness :
    (promote_or_demote cogEnvNoUser stAgent "boss@musclepoints.com"
        "u@musclepoints.com" "Supervisor" true 9).2 =
      .ok
        { ok := true, dbChanged := true, cognitoChanged := false, tokensRevoked := false,
          note := some "Cognito user not found; will sync on first login" } ∧
    findByEmail (promote_or_demote cogEnvNoUser stAgent "boss@musclepoints.com"
        "u@musclepoints.com" "Supervisor" true 9).1.invited (lowerStr "u@musclepoints.com")
      = some { recAgentActive with role := "Supervisor", updatedAt := 9 } ∧
    promote_or_demote cogEnvSetRoleFails stAgent "boss@musclepoints.com"
        "u@musclepoints.com" "Agent" false 9 = (stAgent, .error .cognitoError) := by
  have h := role_sync_partial_failure cogEnvNoUser stAgent "boss@musclepoints.com"
    "u@musclepoints.com" "Supervisor" true 9 recAgentActive (by decide)
  have h2 := role_sync_partial_failure cogEnvSetRoleFails stAgent "boss@musclepoints.com"
    "u@musclepoints.com" "Agent" false 9 recAgentActive (by decide)
  refine ⟨?_, ?_, ?_⟩
  · have := (h.1 rfl).1
    simpa using this
  · exact (h.1 rfl).2 (by decide)
  · exact h2.2 "cog-user" rfl rfl

/-- C2 counterexample: a successful setStatus transition moves the record to
revoked and responds ok, yet appends nothing to the audit log — the audit list
stays empty — so not every administrative role/status change operation writes
an audit entry before the response. -/
theorem audit_setstatus_missing_cex :
    (update_user_status cogEnvOk stAgent prinSup "u@musclepoints.com" "revoked" 5).2 =
      .ok
        { email := "u@musclepoints.com", status := "revoked",
          cognitoChanged := true, tokensRevoked := true } ∧
    (update_user_status cogEnvOk stAgent prinSup "u@musclepoints.com"
        "revoked" 5).1.audit = [] ∧
    (findByEmail (update_user_status cogEnvOk stAgent prinSup "u@musclepoints.com"
        "revoked" 5).1.invited "u@musclepoints.com").map (fun r => r.status)
      = some "revoked" := by
  refine ⟨by decide, by decide, by decide⟩

/-- C2 amended: audit writes exist only on the role-change path: setStatus
(update_user_status) leaves the audit log untouched in every outcome; a
successful promote_or_demote appends exactly one audit entry tagged
admin:roles for the lowered target email and recording the acting admin; and a
role change on a target absent from the allowlist raises after its audit
insert inside the same transaction, so the insert is rolled back and the
returned state carries no new entry. -/
theorem audit_coverage_amended :
    (∀ env st me email ns now,
      (update_user_status env st me email ns now).1.audit = st.audit) ∧
    (∀ env st a t r fl now res,
      (promote_or_demote env st a t r fl now).2 = .ok res →
      ∃ entry, (promote_or_demote env st a t r fl now).1.audit = st.audit ++ [entry] ∧
        entry.providerSub = "admin:roles" ∧ entry.email = lowerStr t ∧
        entry.userAgent = "admin:" ++ a) ∧
    (∀ env st a t r fl now, findByEmail st.invited (lowerStr t) = none →
      promote_or_demote env st a t r fl now = (st, .error .userNotFound)) := by
  refine ⟨?_, ?_, ?_⟩
  · intro env st me email ns now
    unfold update_user_status
    dsimp only
    repeat' split <;> try rfl
  · intro env st a t r fl now res hok
    unfold promote_or_demote promote_or_demote_body at hok ⊢
    cases hfe : findByEmail st.invited (lowerStr t) with
    | none => simp [hfe] at hok
    | some row =>
      cases hfu : env.findUsernameByEmail (lowerStr t) with
      | error e => simp [hfe, hfu] at hok
      | ok uo =>
        cases uo with
        | none =>
          simp only [hfe, hfu]
          exact ⟨_, rfl, rfl, lowerStr_idem t, rfl⟩
        | some u =>
          cases hsr : env.setCognitoRole u r with
          | error e => simp [hfe, hfu, hsr] at hok
          | ok triple =>
            simp only [hfe, hfu, hsr]
            exact ⟨_, rfl, rfl, lowerStr_idem t, rfl⟩
  · intro env st a t r fl now hfe
    unfold promote_or_demote promote_or_demote_body
    simp only [hfe]

/-- Witness for C2 amended: a concrete setStatus run keeps the audit empty, a
successful role change on stAgent appends its one entry, and a role change on
an unknown email returns the original state with the error. -/
theorem audit_coverage_amended_witness :
    (update_user_status cogEnvOk stAgent prinSup "u@musclepoints.com" "active" 5).1.audit
      = stAgent.audit ∧
    (∃ entry, (promote_or_demote cogEnvOk stAgent "boss@musclepoints.com"
        "u@musclepoints.com" "Supervisor" true 7).1.audit = stAgent.audit ++ [entry] ∧
      entry.providerSub = "admin:roles" ∧ entry.email = lowerStr "u@musclepoints.com" ∧
      entry.userAgent = "admin:" ++ "boss@musclepoints.com") ∧
    promote_or_demote cogEnvOk stAgent "boss@musclepoints.com" "ghost@musclepoints.com"
        "Agent" true 7 = (stAgent, .error .userNotFound) := by
  refine ⟨audit_coverage_amended.1 cogEnvOk stAgent prinSup "u@musclepoints.com" "active" 5,
    audit_coverage_amended.2.1 cogEnvOk stAgent "boss@musclepoints.com"
      "u@musclepoints.com" "Supervisor" true 7
      { ok := true, dbChanged := true, cognitoChanged := true, tokensRevoked := true,
        note := none } (by decide),
    audit_coverage_amended.2.2 cogEnvOk stAgent "boss@musclepoints.com"
      "ghost@musclepoints.com" "Agent" true 7 (by decide)⟩

end CsBackend
